import Mathlib

/-!
Verification of the Envoy HTTP fault filter (source/extensions/filters/http/fault)
against its natural-language specification.

The repository provides the header fault_filter.h. Declarations, inline method
bodies, the statistics macro, the runtime key values and the data members are
embedded directly from that header. Method bodies that live in the missing
fault_filter.cc are modelled from the specification and are marked
`Modelled from the spec:` in their doc comments.
-/

namespace FaultSpec

/-! ## Statistics (ALL_FAULT_FILTER_STATS, fault_filter.h lines 29-35) -/

/-- Counter names generated by the ALL_FAULT_FILTER_STATS macro in
fault_filter.h (lines 29-34): COUNTER(delays_injected),
COUNTER(aborts_injected), COUNTER(response_rl_injected),
COUNTER(faults_overflow). -/
def faultFilterCounters : List String :=
  ["delays_injected", "aborts_injected", "response_rl_injected", "faults_overflow"]

/-- Gauge names generated by the ALL_FAULT_FILTER_STATS macro in
fault_filter.h (line 34): GAUGE(active_faults). -/
def faultFilterGauges : List String :=
  ["active_faults"]

/-- The counter names claimed by the spec for the StatsSink. -/
def specClaimedCounters : List String :=
  ["delays_injected", "aborts_injected", "response_rate_limited", "faults_overflow"]

/-! ## Filter status enums (envoy/http/filter.h interface used by the header) -/

/-- Http::FilterHeadersStatus as used by decodeHeaders/encodeHeaders. -/
inductive FilterHeadersStatus where
  | Continue
  | StopIteration
deriving DecidableEq, Repr

/-- Http::FilterTrailersStatus as used by decodeTrailers/encodeTrailers. -/
inductive FilterTrailersStatus where
  | Continue
  | StopIteration
deriving DecidableEq, Repr

/-- Http::FilterMetadataStatus as used by encodeMetadata. -/
inductive FilterMetadataStatus where
  | Continue
deriving DecidableEq, Repr

/-- A header map, embedded as an ordered list of name/value pairs. -/
def HeaderMap : Type := List (String × String)

instance : DecidableEq HeaderMap := by
  unfold HeaderMap
  infer_instance

/-- A metadata map, embedded like a header map. -/
def MetadataMap : Type := List (String × String)

instance : DecidableEq MetadataMap := by
  unfold MetadataMap
  infer_instance

/-! ## Per-request filter state (FaultFilter data members, fault_filter.h 206-217) -/

/-- The mutable per-request members of FaultFilter that the lifecycle hooks can
touch: delay_timer_ (whether a delay timer is outstanding), fault_active_
(whether this request holds an active-fault budget slot), and
response_limiter_ (whether the request owns a StreamRateLimiter). -/
structure FilterState where
  delay_timer : Bool
  fault_active : Bool
  response_limiter : Bool
deriving DecidableEq, Repr

/-- FaultFilter::encode100ContinueHeaders, inline in fault_filter.h lines
161-163: the body is exactly one statement, returning
Http::FilterHeadersStatus::Continue; the filter state and the header map are
untouched. -/
def encode100ContinueHeaders (st : FilterState) (headers : HeaderMap) :
    FilterHeadersStatus × FilterState × HeaderMap :=
  (FilterHeadersStatus.Continue, st, headers)

/-- FaultFilter::encodeHeaders, inline in fault_filter.h lines 164-166: the
body returns Http::FilterHeadersStatus::Continue unconditionally; both
arguments are ignored and nothing is modified. -/
def encodeHeaders (st : FilterState) (headers : HeaderMap) (_end_stream : Bool) :
    FilterHeadersStatus × FilterState × HeaderMap :=
  (FilterHeadersStatus.Continue, st, headers)

/-- FaultFilter::encodeTrailers, inline in fault_filter.h lines 168-170: the
body returns Http::FilterTrailersStatus::Continue unconditionally. -/
def encodeTrailers (st : FilterState) (trailers : HeaderMap) :
    FilterTrailersStatus × FilterState × HeaderMap :=
  (FilterTrailersStatus.Continue, st, trailers)

/-- FaultFilter::encodeMetadata, inline in fault_filter.h lines 171-173: the
body returns Http::FilterMetadataStatus::Continue unconditionally. -/
def encodeMetadata (st : FilterState) (metadata : MetadataMap) :
    FilterMetadataStatus × FilterState × MetadataMap :=
  (FilterMetadataStatus.Continue, st, metadata)

/-! ## Shared statistics scope and the active-fault budget -/

/-- The statistics of one FaultFilterConfig scope (FaultFilterStats,
fault_filter.h lines 40-42): one field per name generated by
ALL_FAULT_FILTER_STATS. The active_faults gauge doubles as the shared
active-fault budget counter read by faultOverflow. -/
structure GlobalState where
  active_faults : Nat
  delays_injected : Nat
  aborts_injected : Nat
  response_rl_injected : Nat
  faults_overflow : Nat
deriving DecidableEq, Repr

/-- Modelled from the spec: tryAcquireBudget, realised in the code by
FaultFilter::faultOverflow (declared fault_filter.h line 191) followed by
FaultFilter::incActiveFaults (line 203); the bodies live in the missing
fault_filter.cc. If max_active_faults is unset the acquisition always succeeds
and increments the shared counter. If set, the current count is compared with
the bound in the same step as the increment: on success the counter is
incremented, on failure it is left untouched and the faults_overflow counter
is incremented (a stats-only event; the Bool result only steers evaluation). -/
def tryAcquireBudget (max_active_faults : Option Nat) (g : GlobalState) :
    Bool × GlobalState :=
  match max_active_faults with
  | none => (true, { g with active_faults := g.active_faults + 1 })
  | some bound =>
    if g.active_faults < bound then
      (true, { g with active_faults := g.active_faults + 1 })
    else
      (false, { g with faults_overflow := g.faults_overflow + 1 })

/-- Modelled from the spec: releasing a held budget slot decrements the shared
active_faults gauge (performed inside FaultFilter::onDestroy when
fault_active_ is set). -/
def releaseBudget (g : GlobalState) : GlobalState :=
  { g with active_faults := g.active_faults - 1 }

/-- One budget operation performed by some request context sharing the
configuration scope: an acquisition attempt, or a release performed by a
request that holds a slot. -/
inductive BudgetEvent where
  | acquire
  | release
deriving DecidableEq, Repr

/-- Modelled from the spec: the effect of one budget event on the shared
statistics scope. -/
def budgetStep (max_active_faults : Option Nat) (g : GlobalState) :
    BudgetEvent → GlobalState
  | BudgetEvent.acquire => (tryAcquireBudget max_active_faults g).2
  | BudgetEvent.release => releaseBudget g

/-- Modelled from the spec: the shared statistics scope after an arbitrary
sequence of budget events issued by the requests sharing it. -/
def runBudget (max_active_faults : Option Nat) (g : GlobalState)
    (events : List BudgetEvent) : GlobalState :=
  events.foldl (budgetStep max_active_faults) g

/-! ## Per-request budget accounting and teardown -/

/-- One request context together with the shared scope, instrumented with the
number of budget increments (incs) and decrements (decs) this request has
performed, so that matched-release claims can be stated. -/
structure ReqRun where
  st : FilterState
  g : GlobalState
  incs : Nat
  decs : Nat
deriving DecidableEq, Repr

/-- Modelled from the spec: a fault selected for this request acquires a
budget slot; a request that already holds a slot reuses it rather than
double-acquiring. On a successful fresh acquisition fault_active_ is set and
the increment is recorded; on overflow the request state is untouched (only
the shared faults_overflow counter moved). -/
def acquireForFault (max_active_faults : Option Nat) (r : ReqRun) : Bool × ReqRun :=
  if r.st.fault_active then
    (true, r)
  else
    match tryAcquireBudget max_active_faults r.g with
    | (true, g2) =>
      (true, { r with st := { r.st with fault_active := true }, g := g2,
                      incs := r.incs + 1 })
    | (false, g2) => (false, { r with g := g2 })

/-- Modelled from the spec: FaultFilter::onDestroy (declared fault_filter.h
line 150; body in the missing fault_filter.cc). It cancels any outstanding
delay timer (resetTimerState, line 194), releases the held budget slot exactly
once when fault_active_ (line 212) is set, clears fault_active_, and releases
any owned StreamRateLimiter (response_limiter_, line 213). -/
def onDestroy (r : ReqRun) : ReqRun :=
  let cleared : FilterState :=
    { delay_timer := false, fault_active := false, response_limiter := false }
  if r.st.fault_active then
    { st := cleared, g := releaseBudget r.g, incs := r.incs, decs := r.decs + 1 }
  else
    { r with st := cleared }

/-- A lifecycle event of one request: a fault selection that tries to take a
budget slot, or a teardown. -/
inductive RequestEvent where
  | tryFault
  | destroy
deriving DecidableEq, Repr

/-- Modelled from the spec: the effect of one lifecycle event on a request
context. -/
def requestStep (max_active_faults : Option Nat) (r : ReqRun) :
    RequestEvent → ReqRun
  | RequestEvent.tryFault => (acquireForFault max_active_faults r).2
  | RequestEvent.destroy => onDestroy r

/-- Modelled from the spec: a request context after an arbitrary sequence of
lifecycle events. -/
def runRequest (max_active_faults : Option Nat) (r : ReqRun)
    (events : List RequestEvent) : ReqRun :=
  events.foldl (requestStep max_active_faults) r

/-! ## StreamRateLimiter (fault_filter.h lines 112-139) -/

/-- The state of one StreamRateLimiter, with bytes embedded as Nat values.
buffer models buffer_ (the owned buffered bytes, in order); tokens, capacity
and quantum model token_bucket_; max_buffered_data models
max_buffered_data_; timer_armed models token_timer_ being scheduled;
forwarded records the concatenation of all bytes handed to write_data_cb_;
pause_calls and resume_calls count the invocations of pause_data_cb_ and
resume_data_cb_; paused tracks whether the producer is currently paused. -/
structure LimiterState where
  buffer : List Nat
  tokens : Nat
  capacity : Nat
  quantum : Nat
  max_buffered_data : Nat
  paused : Bool
  timer_armed : Bool
  forwarded : List Nat
  pause_calls : Nat
  resume_calls : Nat
deriving DecidableEq, Repr

/-- Modelled from the spec: the drain-and-possibly-resume sequence shared by
writeData and onTokenTimer. Computes n = min(tokens_available,
buffered_bytes); if n > 0 it forwards exactly the first n bytes via
write_data_cb_ (appended to forwarded), removes them from the buffer
preserving the order of the remainder, and consumes n tokens. The refill
timer stays armed while bytes remain buffered and stops otherwise. If the
buffer becomes empty and the producer was paused, resume_data_cb_ is invoked
exactly once and the paused flag clears. -/
def drainAndMaybeResume (s : LimiterState) : LimiterState :=
  let n := min s.tokens s.buffer.length
  let s1 :=
    if 0 < n then
      { s with forwarded := s.forwarded ++ s.buffer.take n,
               buffer := s.buffer.drop n,
               tokens := s.tokens - n }
    else s
  let s2 := { s1 with timer_armed := decide (s1.buffer ≠ []) }
  if s2.buffer = [] ∧ s2.paused then
    { s2 with paused := false, resume_calls := s2.resume_calls + 1 }
  else s2

/-- Modelled from the spec: StreamRateLimiter::writeData (declared
fault_filter.h line 125; body in the missing fault_filter.cc). Appends the
incoming buffer to the owned buffer_, taking ownership of the bytes; if the
buffer size after the append exceeds max_buffered_data_, invokes
pause_data_cb_ exactly once (idempotent: never called again while already
paused); then attempts an immediate drain. -/
def writeData (incoming : List Nat) (s : LimiterState) : LimiterState :=
  let s0 := { s with buffer := s.buffer ++ incoming }
  let s1 :=
    if s0.max_buffered_data < s0.buffer.length ∧ ¬ s0.paused then
      { s0 with paused := true, pause_calls := s0.pause_calls + 1 }
    else s0
  drainAndMaybeResume s1

/-- Modelled from the spec: StreamRateLimiter::onTokenTimer (declared
fault_filter.h line 128). Adds one refill quantum of tokens, capped at the
bucket capacity, then performs the same drain-and-possibly-resume sequence
as writeData. -/
def onTokenTimer (s : LimiterState) : LimiterState :=
  drainAndMaybeResume { s with tokens := min s.capacity (s.tokens + s.quantum) }

/-- Modelled from the spec: the StreamRateLimiter constructor (fault_filter.h
lines 117-120). Its first parameter is named max_kbps in the header and
FaultSettings::RateLimit (lines 49-52) stores fixed_rate_kbps_, so the
configured rate is in kilobytes per second, converted to max_kbps * 1024
bytes per second. One refill interval is modelled as one second, so both the
token capacity and the refill quantum are max_kbps * 1024 bytes; the bucket
starts full and the buffer empty. -/
def mkStreamRateLimiter (max_kbps max_buffered_data : Nat) : LimiterState :=
  { buffer := [], tokens := max_kbps * 1024, capacity := max_kbps * 1024,
    quantum := max_kbps * 1024, max_buffered_data := max_buffered_data,
    paused := false, timer_armed := false, forwarded := [],
    pause_calls := 0, resume_calls := 0 }

/-- One externally visible limiter event: a chunk submitted through
writeData, or one firing of the token refill timer (one refill interval,
modelled as one second). -/
inductive LimiterEvent where
  | write (chunk : List Nat)
  | tick
deriving DecidableEq, Repr

/-- Modelled from the spec: the effect of one limiter event. -/
def limiterStep (s : LimiterState) : LimiterEvent → LimiterState
  | LimiterEvent.write chunk => writeData chunk s
  | LimiterEvent.tick => onTokenTimer s

/-- Modelled from the spec: the limiter state after a sequence of events. -/
def runLimiter (s : LimiterState) (events : List LimiterEvent) : LimiterState :=
  events.foldl limiterStep s

/-- The concatenation, in order, of all bytes submitted by the write events
of a trace. -/
def submittedBytes : List LimiterEvent → List Nat
  | [] => []
  | LimiterEvent.write chunk :: es => chunk ++ submittedBytes es
  | LimiterEvent.tick :: es => submittedBytes es

/-- The number of refill-timer firings in a trace (with one tick per refill
interval, i.e. per second). -/
def tickCount : List LimiterEvent → Nat
  | [] => 0
  | LimiterEvent.write _ :: es => tickCount es
  | LimiterEvent.tick :: es => tickCount es + 1

/-- The pause/resume alternation invariant: the number of pauseProducer calls
exceeds the number of resumeProducer calls by exactly one while the producer
is paused and is equal to it otherwise. -/
def pauseInv (s : LimiterState) : Prop :=
  s.pause_calls = s.resume_calls + (if s.paused then 1 else 0)

instance (s : LimiterState) : Decidable (pauseInv s) := by
  unfold pauseInv
  infer_instance

/-! ## FaultSettings and request matching -/

/-- FaultSettings::RateLimit (fault_filter.h lines 49-52): fixed_rate_kbps_
(a rate in kilobytes per second) and an enabling FractionalPercent,
embedded as a percentage numerator over a denominator of 100. -/
structure RateLimit where
  fixed_rate_kbps : Nat
  percentage : Nat
deriving DecidableEq, Repr

/-- FaultSettings (fault_filter.h lines 47-78): the parsed per-route fault
configuration. FractionalPercent values are embedded as percentage
numerators over a denominator of 100; the upstream-cluster restriction and
the max-active-faults bound are optional; header matchers are embedded as
exact name/value pairs (Modelled from the spec: an ordered list of
header-name/match-predicate pairs, empty list = match-all). -/
structure FaultSettings where
  abort_percentage : Nat
  http_status : Nat
  fixed_delay_percentage : Nat
  fixed_duration_ms : Nat
  upstream_cluster : Option String
  fault_filter_headers : List (String × String)
  downstream_nodes : List String
  max_active_faults : Option Nat
  response_rate_limit : Option RateLimit
deriving DecidableEq, Repr

/-- The per-request inputs read by decodeHeaders: the request headers, the
caller identity (downstream node), and the upstream cluster the request is
routed to. -/
structure Request where
  headers : List (String × String)
  callerIdentity : Option String
  targetUpstream : Option String
deriving DecidableEq, Repr

/-- Modelled from the spec: FaultFilter::matchesTargetUpstreamCluster
(declared fault_filter.h line 197; body in the missing fault_filter.cc).
When upstream_cluster_ is set, the fault is only considered when the
request's routed upstream cluster matches it exactly; unset = no
restriction. -/
def matchesTargetUpstreamCluster (cfg : FaultSettings) (req : Request) : Bool :=
  match cfg.upstream_cluster with
  | none => true
  | some c => req.targetUpstream = some c

/-- Modelled from the spec: FaultFilter::matchesDownstreamNodes (declared
fault_filter.h line 198). When downstream_nodes_ is non-empty the caller
identity must be present in it; an empty set matches every request. -/
def matchesDownstreamNodes (cfg : FaultSettings) (req : Request) : Bool :=
  if cfg.downstream_nodes.isEmpty then true
  else
    match req.callerIdentity with
    | none => false
    | some node => cfg.downstream_nodes.contains node

/-- Modelled from the spec: every configured header matcher must hold
against the request headers; an empty matcher list matches every request. -/
def matchesHeaders (cfg : FaultSettings) (req : Request) : Bool :=
  cfg.fault_filter_headers.all (fun m => req.headers.contains m)

/-! ## Runtime override keys (fault_filter.h lines 179-189 and 214-217) -/

/-- FaultFilter::RuntimeKeyValues (fault_filter.h lines 179-187): the six
global runtime override keys, with the values written in lines 181-186. -/
structure RuntimeKeyValues where
  DelayPercentKey : String
  AbortPercentKey : String
  DelayDurationKey : String
  AbortHttpStatusKey : String
  MaxActiveFaultsKey : String
  ResponseRateLimitKey : String
deriving DecidableEq, Repr

/-- The singleton RuntimeKeyValues instance (RuntimeKeys, fault_filter.h
line 189), holding the key strings of lines 181-186. -/
def runtimeKeys : RuntimeKeyValues :=
  { DelayPercentKey := "fault.http.delay.fixed_delay_percent"
  , AbortPercentKey := "fault.http.abort.abort_percent"
  , DelayDurationKey := "fault.http.delay.fixed_duration_ms"
  , AbortHttpStatusKey := "fault.http.abort.http_status"
  , MaxActiveFaultsKey := "fault.http.max_active_faults"
  , ResponseRateLimitKey := "fault.http.rate_limit.response" }

/-- Identifier for the six runtime override lookups performed by the
filter. -/
inductive RuntimeKeyId where
  | delayPercent
  | abortPercent
  | delayDuration
  | abortHttpStatus
  | maxActiveFaults
  | responseRateLimit
deriving DecidableEq, Repr

/-- The unsuffixed global key string of each runtime lookup (fault_filter.h
lines 181-186). -/
def baseKey : RuntimeKeyId → String
  | RuntimeKeyId.delayPercent => runtimeKeys.DelayPercentKey
  | RuntimeKeyId.abortPercent => runtimeKeys.AbortPercentKey
  | RuntimeKeyId.delayDuration => runtimeKeys.DelayDurationKey
  | RuntimeKeyId.abortHttpStatus => runtimeKeys.AbortHttpStatusKey
  | RuntimeKeyId.maxActiveFaults => runtimeKeys.MaxActiveFaultsKey
  | RuntimeKeyId.responseRateLimit => runtimeKeys.ResponseRateLimitKey

/-- Which runtime lookups have a per-caller (downstream-cluster) suffixed
variant: exactly the four downstream_cluster_*_key_ members declared by
FaultFilter (fault_filter.h lines 214-217):
downstream_cluster_delay_percent_key_,
downstream_cluster_abort_percent_key_,
downstream_cluster_delay_duration_key_ and
downstream_cluster_abort_http_status_key_. No such member exists for the
max-active-faults or response-rate-limit lookups. -/
def hasDownstreamClusterKey : RuntimeKeyId → Bool
  | RuntimeKeyId.delayPercent => true
  | RuntimeKeyId.abortPercent => true
  | RuntimeKeyId.delayDuration => true
  | RuntimeKeyId.abortHttpStatus => true
  | RuntimeKeyId.maxActiveFaults => false
  | RuntimeKeyId.responseRateLimit => false

/-- Modelled from the spec: the per-caller variant of a runtime key is the
base key suffixed by the caller identity (the downstream cluster name). -/
def downstreamClusterKey (k : RuntimeKeyId) (caller : String) : String :=
  baseKey k ++ "." ++ caller

/-- A runtime override snapshot (RuntimeOverrideSource): a partial map from
key strings to numeric values. -/
abbrev RuntimeSnapshot : Type := String → Option Nat

/-- Modelled from the spec: one runtime override lookup. A lookup that has a
per-downstream-cluster variant (and a caller identity is known) first checks
the suffixed variant, then the unsuffixed global key, before falling back to
the static configuration value; the two lookups without a suffixed variant
check the global key only before the static fallback. -/
def runtimeValue (snap : RuntimeSnapshot) (k : RuntimeKeyId)
    (caller : Option String) (fallback : Nat) : Nat :=
  let viaGlobal :=
    match snap (baseKey k) with
    | some v => v
    | none => fallback
  if hasDownstreamClusterKey k then
    match caller with
    | some c =>
      match snap (downstreamClusterKey k c) with
      | some v => v
      | none => viaGlobal
    | none => viaGlobal
  else viaGlobal

/-! ## The fault decision engine (FaultFilter::decodeHeaders) -/

/-- The result of decodeHeaders toward the pipeline: Continue, Pause (a
delay timer was armed and the filter stops iteration), or Terminate with the
synthesized abort status. -/
inductive HeaderAction where
  | Continue
  | Pause
  | Terminate (status : Nat)
deriving DecidableEq, Repr

/-- The state threaded through decodeHeaders: the shared statistics scope,
the per-request filter state, and the stream of pending random samples. -/
structure DecodeState where
  g : GlobalState
  st : FilterState
  sampler : List Nat
deriving DecidableEq, Repr

/-- Draw one sample from the sampler stream (0 when exhausted). -/
def drawSample : List Nat → Nat × List Nat
  | [] => (0, [])
  | x :: xs => (x, xs)

/-- Modelled from the spec: a probability check — the drawn uniform sample,
reduced mod the denominator 100, selects the fault when it is below the
effective percentage. -/
def percentEnabled (sample percent : Nat) : Bool :=
  sample % 100 < percent

/-- Modelled from the spec: the effective delay percentage — a runtime
override of the delay-probability key, falling back to
fixed_delay_percentage_. -/
def effectiveDelayPercent (snap : RuntimeSnapshot) (cfg : FaultSettings)
    (caller : Option String) : Nat :=
  runtimeValue snap RuntimeKeyId.delayPercent caller cfg.fixed_delay_percentage

/-- Modelled from the spec: the effective abort percentage — a runtime
override of the abort-probability key, falling back to abort_percentage_. -/
def effectiveAbortPercent (snap : RuntimeSnapshot) (cfg : FaultSettings)
    (caller : Option String) : Nat :=
  runtimeValue snap RuntimeKeyId.abortPercent caller cfg.abort_percentage

/-- Modelled from the spec: the effective abort HTTP status — a runtime
override of the abort-status key, falling back to http_status_. -/
def effectiveAbortStatus (snap : RuntimeSnapshot) (cfg : FaultSettings)
    (caller : Option String) : Nat :=
  runtimeValue snap RuntimeKeyId.abortHttpStatus caller cfg.http_status

/-- Modelled from the spec: the effective delay duration in milliseconds — a
runtime override of the delay-duration key, falling back to
fixed_duration_ms_. -/
def effectiveDelayDuration (snap : RuntimeSnapshot) (cfg : FaultSettings)
    (caller : Option String) : Nat :=
  runtimeValue snap RuntimeKeyId.delayDuration caller cfg.fixed_duration_ms

/-- Modelled from the spec: the effective max-active-faults bound; none when
the static configuration leaves it unset, otherwise the static bound subject
to a runtime override of the max-active-faults key. -/
def effectiveMaxActiveFaults (snap : RuntimeSnapshot) (cfg : FaultSettings)
    (caller : Option String) : Option Nat :=
  match cfg.max_active_faults with
  | none => none
  | some m => some (runtimeValue snap RuntimeKeyId.maxActiveFaults caller m)

/-- Bump the faults_overflow statistic by one. -/
def bumpOverflow (g : GlobalState) : GlobalState :=
  { g with faults_overflow := g.faults_overflow + 1 }

/-- Modelled from the spec: step 5 of onRequestHeaders — when a response
rate limit is configured, its enabling percentage (subject to the
response-rate-limit runtime key) is evaluated with one sample; on selection
the request is marked rate-limited (it owns a StreamRateLimiter and
response_rl_injected bumps; no budget slot is consumed) and the result is
Continue either way. -/
def evalRateLimit (snap : RuntimeSnapshot) (cfg : FaultSettings) (req : Request)
    (d : DecodeState) : HeaderAction × DecodeState :=
  match cfg.response_rate_limit with
  | none => (HeaderAction.Continue, d)
  | some rl =>
    let (sample, rest) := drawSample d.sampler
    if percentEnabled sample
        (runtimeValue snap RuntimeKeyId.responseRateLimit req.callerIdentity rl.percentage) then
      (HeaderAction.Continue,
       { d with st := { d.st with response_limiter := true },
                g := { d.g with response_rl_injected := d.g.response_rl_injected + 1 },
                sampler := rest })
    else
      (HeaderAction.Continue, { d with sampler := rest })

/-- Modelled from the spec: steps 4-6 of onRequestHeaders — abort
evaluation, then response-rate-limit evaluation, then Continue. A request
that already holds a budget slot reuses it rather than double-acquiring. On
abort selection with budget, the filter synthesizes the effective abort
status, bumps aborts_injected and terminates; on overflow the abort is
skipped (stats-only) and evaluation proceeds to the rate-limit step. -/
def evalAbortAndRateLimit (snap : RuntimeSnapshot) (cfg : FaultSettings)
    (req : Request) (d : DecodeState) : HeaderAction × DecodeState :=
  let (sample, rest) := drawSample d.sampler
  if percentEnabled sample (effectiveAbortPercent snap cfg req.callerIdentity) then
    let acquired :=
      if d.st.fault_active then (true, d.g)
      else tryAcquireBudget (effectiveMaxActiveFaults snap cfg req.callerIdentity) d.g
    match acquired with
    | (true, g2) =>
      (HeaderAction.Terminate (effectiveAbortStatus snap cfg req.callerIdentity),
       { d with g := { g2 with aborts_injected := g2.aborts_injected + 1 },
                st := { d.st with fault_active := true },
                sampler := rest })
    | (false, g2) =>
      evalRateLimit snap cfg req { d with g := g2, sampler := rest }
  else
    evalRateLimit snap cfg req { d with sampler := rest }

/-- Modelled from the spec: FaultFilter::decodeHeaders (declared
fault_filter.h line 153; body in the missing fault_filter.cc), steps 1-6 of
the onRequestHeaders contract. Step 1: when the upstream-cluster filter, the
downstream-node filter or any header matcher rejects the request, the result
is Continue and no fault is considered at all — no sample drawn, no budget
touched, no timer started, no statistic changed. Steps 2-3: delay
evaluation; on selection the budget is acquired; on success the slot is
held, delays_injected bumps, the delay timer starts and the result is Pause;
on overflow the delay is not applied and evaluation falls through to the
abort step. Steps 4-6: abort and response-rate-limit evaluation. -/
def decodeHeaders (snap : RuntimeSnapshot) (cfg : FaultSettings) (req : Request)
    (d : DecodeState) : HeaderAction × DecodeState :=
  if matchesTargetUpstreamCluster cfg req ∧ matchesDownstreamNodes cfg req ∧
      matchesHeaders cfg req then
    let (sample, rest) := drawSample d.sampler
    if percentEnabled sample (effectiveDelayPercent snap cfg req.callerIdentity) then
      match tryAcquireBudget (effectiveMaxActiveFaults snap cfg req.callerIdentity) d.g with
      | (true, g2) =>
        (HeaderAction.Pause,
         { d with g := { g2 with delays_injected := g2.delays_injected + 1 },
                  st := { d.st with fault_active := true, delay_timer := true },
                  sampler := rest })
      | (false, g2) =>
        evalAbortAndRateLimit snap cfg req { d with g := g2, sampler := rest }
    else
      evalAbortAndRateLimit snap cfg req { d with sampler := rest }
  else
    (HeaderAction.Continue, d)

end FaultSpec

namespace FaultSpec

/-! ## Claim C7: stats names -/

/-- C7 counterexample: the claim says the StatsSink receives a counter named
exactly response_rate_limited, but the counter generated by
ALL_FAULT_FILTER_STATS is response_rl_injected; response_rate_limited is not
among the fault-filter counter names. -/
theorem C7_counterexample_response_rate_limited_not_a_counter :
    specClaimedCounters ≠ faultFilterCounters ∧
    ("response_rate_limited" ∈ specClaimedCounters) ∧
    ¬ ("response_rate_limited" ∈ faultFilterCounters) := by
  refine ⟨by decide, by decide, by decide⟩

/-- C7 (amended): the StatsSink receives fault-filter counters named exactly
delays_injected, aborts_injected, response_rl_injected and faults_overflow
(the third is response_rl_injected, not response_rate_limited), plus a gauge
named active_faults. -/
theorem C7_stat_names_amended :
    faultFilterCounters =
      ["delays_injected", "aborts_injected", "response_rl_injected", "faults_overflow"] ∧
    faultFilterGauges = ["active_faults"] :=
  ⟨rfl, rfl⟩

/-! ## Claim C10: response-path hooks other than encodeData -/

/-- C10: for every response-path call other than encodeData —
encode100ContinueHeaders, encodeHeaders, encodeTrailers and encodeMetadata —
the filter unconditionally returns Continue and leaves the passed map and the
per-request filter state unmodified, in every request state. -/
theorem C10_encode_paths_continue_and_frame (st : FilterState) (headers trailers : HeaderMap)
    (metadata : MetadataMap) (end_stream : Bool) :
    encode100ContinueHeaders st headers = (FilterHeadersStatus.Continue, st, headers) ∧
    encodeHeaders st headers end_stream = (FilterHeadersStatus.Continue, st, headers) ∧
    encodeTrailers st trailers = (FilterTrailersStatus.Continue, st, trailers) ∧
    encodeMetadata st metadata = (FilterMetadataStatus.Continue, st, metadata) :=
  ⟨rfl, rfl, rfl, rfl⟩

/-! ## Claim C1: the active-fault budget is bounded -/

theorem budgetStep_active_le {bound : Nat} {g : GlobalState} (e : BudgetEvent)
    (h : g.active_faults ≤ bound) :
    (budgetStep (some bound) g e).active_faults ≤ bound := by
  cases e with
  | acquire =>
    simp only [budgetStep, tryAcquireBudget]
    split
    · next hlt => exact hlt
    · exact h
  | release => exact le_trans (Nat.sub_le _ _) h

theorem runBudget_active_le {bound : Nat} (events : List BudgetEvent) {g : GlobalState}
    (h : g.active_faults ≤ bound) :
    (runBudget (some bound) g events).active_faults ≤ bound := by
  induction events generalizing g with
  | nil => exact h
  | cons e es ih => exact ih (budgetStep_active_le e h)

/-- C1: with max_active_faults set to a bound, over every sequence of budget
events issued by requests the shared counter satisfies
0 ≤ active_faults ≤ bound; and whenever the counter has reached the bound,
tryAcquireBudget fails, leaves the counter untouched, bumps only the
faults_overflow statistic, and reports the overflow through its Bool result
only (no error value exists to surface to the caller). -/
theorem C1_budget_bounded_and_overflow_stats_only
    (bound : Nat) (g g2 : GlobalState) (events : List BudgetEvent)
    (h : g.active_faults ≤ bound) (h2 : bound ≤ g2.active_faults) :
    0 ≤ (runBudget (some bound) g events).active_faults ∧
    (runBudget (some bound) g events).active_faults ≤ bound ∧
    (tryAcquireBudget (some bound) g2).1 = false ∧
    (tryAcquireBudget (some bound) g2).2.active_faults = g2.active_faults ∧
    (tryAcquireBudget (some bound) g2).2.faults_overflow = g2.faults_overflow + 1 ∧
    (tryAcquireBudget (some bound) g2).2.delays_injected = g2.delays_injected ∧
    (tryAcquireBudget (some bound) g2).2.aborts_injected = g2.aborts_injected := by
  have hnot : ¬ g2.active_faults < bound := Nat.not_lt.mpr h2
  exact ⟨Nat.zero_le _, runBudget_active_le events h,
    by simp [tryAcquireBudget, hnot], by simp [tryAcquireBudget, hnot],
    by simp [tryAcquireBudget, hnot], by simp [tryAcquireBudget, hnot],
    by simp [tryAcquireBudget, hnot]⟩

/-- C1 witness: the theorem instantiated at bound 1, an empty initial scope,
a scope already at the bound, and a concrete event sequence. -/
theorem C1_budget_bounded_witness :
    0 ≤ (runBudget (some 1) (GlobalState.mk 0 0 0 0 0)
          [BudgetEvent.acquire, BudgetEvent.acquire, BudgetEvent.release,
           BudgetEvent.acquire]).active_faults ∧
    (runBudget (some 1) (GlobalState.mk 0 0 0 0 0)
          [BudgetEvent.acquire, BudgetEvent.acquire, BudgetEvent.release,
           BudgetEvent.acquire]).active_faults ≤ 1 ∧
    (tryAcquireBudget (some 1) (GlobalState.mk 1 0 0 0 0)).1 = false ∧
    (tryAcquireBudget (some 1) (GlobalState.mk 1 0 0 0 0)).2.active_faults =
      (GlobalState.mk 1 0 0 0 0).active_faults ∧
    (tryAcquireBudget (some 1) (GlobalState.mk 1 0 0 0 0)).2.faults_overflow =
      (GlobalState.mk 1 0 0 0 0).faults_overflow + 1 ∧
    (tryAcquireBudget (some 1) (GlobalState.mk 1 0 0 0 0)).2.delays_injected =
      (GlobalState.mk 1 0 0 0 0).delays_injected ∧
    (tryAcquireBudget (some 1) (GlobalState.mk 1 0 0 0 0)).2.aborts_injected =
      (GlobalState.mk 1 0 0 0 0).aborts_injected :=
  C1_budget_bounded_and_overflow_stats_only 1 (GlobalState.mk 0 0 0 0 0)
    (GlobalState.mk 1 0 0 0 0)
    [BudgetEvent.acquire, BudgetEvent.acquire, BudgetEvent.release, BudgetEvent.acquire]
    (by decide) (by decide)

/-! ## Claim C2: matched release and idempotent teardown -/

theorem requestStep_balanced {m : Option Nat} {r : ReqRun} (e : RequestEvent)
    (h : r.incs = r.decs + (if r.st.fault_active then 1 else 0)) :
    (requestStep m r e).incs =
      (requestStep m r e).decs +
        (if (requestStep m r e).st.fault_active then 1 else 0) := by
  cases e with
  | tryFault =>
    by_cases hf : r.st.fault_active
    · simpa [requestStep, acquireForFault, hf] using h
    · rcases htry : tryAcquireBudget m r.g with ⟨ok, g2⟩
      cases ok <;> simpa [requestStep, acquireForFault, hf, htry] using h
  | destroy =>
    by_cases hf : r.st.fault_active <;> simpa [requestStep, onDestroy, hf] using h

theorem runRequest_balanced {m : Option Nat} (events : List RequestEvent) {r : ReqRun}
    (h : r.incs = r.decs + (if r.st.fault_active then 1 else 0)) :
    (runRequest m r events).incs =
      (runRequest m r events).decs +
        (if (runRequest m r events).st.fault_active then 1 else 0) := by
  induction events generalizing r with
  | nil => exact h
  | cons e es ih => exact ih (requestStep_balanced e h)

theorem onDestroy_balanced {r : ReqRun}
    (h : r.incs = r.decs + (if r.st.fault_active then 1 else 0)) :
    (onDestroy r).incs = (onDestroy r).decs := by
  by_cases hf : r.st.fault_active <;> simpa [onDestroy, hf] using h

/-- C2: every budget increment a request performs is matched by exactly one
decrement: over every event sequence the request's increments exceed its
decrements by exactly one when it holds a slot and zero otherwise, and after
teardown they balance exactly. onDestroy cancels the delay timer, clears
fault_active_, releases the owned StreamRateLimiter, decrements the shared
gauge exactly once when a slot was held and not at all otherwise, and is
idempotent. -/
theorem C2_matched_release_and_idempotent_teardown
    (m : Option Nat) (r r1 r2 : ReqRun) (events : List RequestEvent)
    (h : r.incs = r.decs + (if r.st.fault_active then 1 else 0))
    (h1 : r1.st.fault_active = true) (h2 : r2.st.fault_active = false) :
    (runRequest m r events).incs =
      (runRequest m r events).decs +
        (if (runRequest m r events).st.fault_active then 1 else 0) ∧
    (onDestroy (runRequest m r events)).incs = (onDestroy (runRequest m r events)).decs ∧
    (onDestroy r1).st.delay_timer = false ∧
    (onDestroy r1).st.fault_active = false ∧
    (onDestroy r1).st.response_limiter = false ∧
    (onDestroy r1).decs = r1.decs + 1 ∧
    (onDestroy r1).g.active_faults = r1.g.active_faults - 1 ∧
    (onDestroy r1).incs = r1.incs ∧
    (onDestroy r2).g = r2.g ∧
    (onDestroy r2).decs = r2.decs ∧
    onDestroy (onDestroy r) = onDestroy r := by
  refine ⟨runRequest_balanced events h, onDestroy_balanced (runRequest_balanced events h),
    ?_, ?_, ?_, ?_, ?_, ?_, ?_, ?_, ?_⟩
  · simp [onDestroy, h1]
  · simp [onDestroy, h1]
  · simp [onDestroy, h1]
  · simp [onDestroy, h1]
  · simp [onDestroy, h1, releaseBudget]
  · simp [onDestroy, h1]
  · simp [onDestroy, h2]
  · simp [onDestroy, h2]
  · by_cases hf : r.st.fault_active <;> simp [onDestroy, hf]

/-- C2 witness: the theorem instantiated at a concrete scope with bound 1, a
request that acquires a slot and is then destroyed, a context holding a slot,
and a context holding none. -/
theorem C2_matched_release_witness :
    (runRequest (some 1) (ReqRun.mk (FilterState.mk false false false)
        (GlobalState.mk 0 0 0 0 0) 0 0)
        [RequestEvent.tryFault, RequestEvent.destroy]).incs =
      (runRequest (some 1) (ReqRun.mk (FilterState.mk false false false)
        (GlobalState.mk 0 0 0 0 0) 0 0)
        [RequestEvent.tryFault, RequestEvent.destroy]).decs +
        (if (runRequest (some 1) (ReqRun.mk (FilterState.mk false false false)
          (GlobalState.mk 0 0 0 0 0) 0 0)
          [RequestEvent.tryFault, RequestEvent.destroy]).st.fault_active then 1 else 0) ∧
    (onDestroy (runRequest (some 1) (ReqRun.mk (FilterState.mk false false false)
        (GlobalState.mk 0 0 0 0 0) 0 0)
        [RequestEvent.tryFault, RequestEvent.destroy])).incs =
      (onDestroy (runRequest (some 1) (ReqRun.mk (FilterState.mk false false false)
        (GlobalState.mk 0 0 0 0 0) 0 0)
        [RequestEvent.tryFault, RequestEvent.destroy])).decs ∧
    (onDestroy (ReqRun.mk (FilterState.mk true true true)
        (GlobalState.mk 1 0 0 0 0) 1 0)).st.delay_timer = false ∧
    (onDestroy (ReqRun.mk (FilterState.mk true true true)
        (GlobalState.mk 1 0 0 0 0) 1 0)).st.fault_active = false ∧
    (onDestroy (ReqRun.mk (FilterState.mk true true true)
        (GlobalState.mk 1 0 0 0 0) 1 0)).st.response_limiter = false ∧
    (onDestroy (ReqRun.mk (FilterState.mk true true true)
        (GlobalState.mk 1 0 0 0 0) 1 0)).decs =
      (ReqRun.mk (FilterState.mk true true true) (GlobalState.mk 1 0 0 0 0) 1 0).decs + 1 ∧
    (onDestroy (ReqRun.mk (FilterState.mk true true true)
        (GlobalState.mk 1 0 0 0 0) 1 0)).g.active_faults =
      (ReqRun.mk (FilterState.mk true true true)
        (GlobalState.mk 1 0 0 0 0) 1 0).g.active_faults - 1 ∧
    (onDestroy (ReqRun.mk (FilterState.mk true true true)
        (GlobalState.mk 1 0 0 0 0) 1 0)).incs =
      (ReqRun.mk (FilterState.mk true true true) (GlobalState.mk 1 0 0 0 0) 1 0).incs ∧
    (onDestroy (ReqRun.mk (FilterState.mk false false false)
        (GlobalState.mk 0 0 0 0 0) 0 0)).g =
      (ReqRun.mk (FilterState.mk false false false) (GlobalState.mk 0 0 0 0 0) 0 0).g ∧
    (onDestroy (ReqRun.mk (FilterState.mk false false false)
        (GlobalState.mk 0 0 0 0 0) 0 0)).decs =
      (ReqRun.mk (FilterState.mk false false false) (GlobalState.mk 0 0 0 0 0) 0 0).decs ∧
    onDestroy (onDestroy (ReqRun.mk (FilterState.mk false false false)
        (GlobalState.mk 0 0 0 0 0) 0 0)) =
      onDestroy (ReqRun.mk (FilterState.mk false false false)
        (GlobalState.mk 0 0 0 0 0) 0 0) :=
  C2_matched_release_and_idempotent_teardown (some 1)
    (ReqRun.mk (FilterState.mk false false false) (GlobalState.mk 0 0 0 0 0) 0 0)
    (ReqRun.mk (FilterState.mk true true true) (GlobalState.mk 1 0 0 0 0) 1 0)
    (ReqRun.mk (FilterState.mk false false false) (GlobalState.mk 0 0 0 0 0) 0 0)
    [RequestEvent.tryFault, RequestEvent.destroy]
    (by decide) (by decide) (by decide)

/-! ## StreamRateLimiter helper lemmas -/

@[simp] theorem drain_buffer (s : LimiterState) :
    (drainAndMaybeResume s).buffer = s.buffer.drop (min s.tokens s.buffer.length) := by
  unfold drainAndMaybeResume
  dsimp only
  by_cases h1 : 0 < min s.tokens s.buffer.length
  · simp only [if_pos h1]
    split_ifs <;> rfl
  · have h0 : min s.tokens s.buffer.length = 0 := by omega
    simp only [if_neg h1]
    split_ifs <;> simp [h0]

@[simp] theorem drain_forwarded (s : LimiterState) :
    (drainAndMaybeResume s).forwarded =
      s.forwarded ++ s.buffer.take (min s.tokens s.buffer.length) := by
  unfold drainAndMaybeResume
  dsimp only
  by_cases h1 : 0 < min s.tokens s.buffer.length
  · simp only [if_pos h1]
    split_ifs <;> rfl
  · have h0 : min s.tokens s.buffer.length = 0 := by omega
    simp only [if_neg h1]
    split_ifs <;> simp [h0]

@[simp] theorem drain_tokens (s : LimiterState) :
    (drainAndMaybeResume s).tokens = s.tokens - min s.tokens s.buffer.length := by
  unfold drainAndMaybeResume
  dsimp only
  by_cases h1 : 0 < min s.tokens s.buffer.length
  · simp only [if_pos h1]
    split_ifs <;> rfl
  · have h0 : min s.tokens s.buffer.length = 0 := by omega
    simp only [if_neg h1]
    split_ifs <;> simp [h0]

@[simp] theorem drain_quantum (s : LimiterState) :
    (drainAndMaybeResume s).quantum = s.quantum := by
  unfold drainAndMaybeResume
  dsimp only
  split_ifs <;> rfl

@[simp] theorem drain_capacity (s : LimiterState) :
    (drainAndMaybeResume s).capacity = s.capacity := by
  unfold drainAndMaybeResume
  dsimp only
  split_ifs <;> rfl

@[simp] theorem drain_max_buffered (s : LimiterState) :
    (drainAndMaybeResume s).max_buffered_data = s.max_buffered_data := by
  unfold drainAndMaybeResume
  dsimp only
  split_ifs <;> rfl

@[simp] theorem drain_pause_calls (s : LimiterState) :
    (drainAndMaybeResume s).pause_calls = s.pause_calls := by
  unfold drainAndMaybeResume
  dsimp only
  split_ifs <;> rfl

theorem drain_forwarded_append_buffer (s : LimiterState) :
    (drainAndMaybeResume s).forwarded ++ (drainAndMaybeResume s).buffer =
      s.forwarded ++ s.buffer := by
  simp [List.append_assoc, List.take_append_drop]

theorem drain_bytes_tokens (s : LimiterState) :
    (drainAndMaybeResume s).forwarded.length + (drainAndMaybeResume s).tokens =
      s.forwarded.length + s.tokens := by
  have h1 : min s.tokens s.buffer.length ≤ s.tokens := Nat.min_le_left _ _
  have h2 : min s.tokens s.buffer.length ≤ s.buffer.length := Nat.min_le_right _ _
  simp [List.length_take]
  omega

theorem writeData_forwarded_append_buffer (chunk : List Nat) (s : LimiterState) :
    (writeData chunk s).forwarded ++ (writeData chunk s).buffer =
      s.forwarded ++ (s.buffer ++ chunk) := by
  unfold writeData
  dsimp only
  split_ifs <;> rw [drain_forwarded_append_buffer]

theorem onTokenTimer_forwarded_append_buffer (s : LimiterState) :
    (onTokenTimer s).forwarded ++ (onTokenTimer s).buffer =
      s.forwarded ++ s.buffer := by
  unfold onTokenTimer
  rw [drain_forwarded_append_buffer]

theorem runLimiter_forwarded_append_buffer (events : List LimiterEvent) :
    ∀ s : LimiterState,
      (runLimiter s events).forwarded ++ (runLimiter s events).buffer =
        s.forwarded ++ s.buffer ++ submittedBytes events := by
  induction events with
  | nil => intro s; simp [runLimiter, submittedBytes]
  | cons e es ih =>
    intro s
    cases e with
    | write chunk =>
      have hstep : runLimiter s (LimiterEvent.write chunk :: es) =
          runLimiter (writeData chunk s) es := rfl
      rw [hstep, ih, writeData_forwarded_append_buffer]
      simp [submittedBytes, List.append_assoc]
    | tick =>
      have hstep : runLimiter s (LimiterEvent.tick :: es) =
          runLimiter (onTokenTimer s) es := rfl
      rw [hstep, ih, onTokenTimer_forwarded_append_buffer]
      simp [submittedBytes]

@[simp] theorem writeData_quantum (chunk : List Nat) (s : LimiterState) :
    (writeData chunk s).quantum = s.quantum := by
  unfold writeData
  dsimp only
  split_ifs <;> simp

@[simp] theorem writeData_capacity (chunk : List Nat) (s : LimiterState) :
    (writeData chunk s).capacity = s.capacity := by
  unfold writeData
  dsimp only
  split_ifs <;> simp

@[simp] theorem onTokenTimer_quantum (s : LimiterState) :
    (onTokenTimer s).quantum = s.quantum := by
  unfold onTokenTimer
  simp

@[simp] theorem onTokenTimer_capacity (s : LimiterState) :
    (onTokenTimer s).capacity = s.capacity := by
  unfold onTokenTimer
  simp

theorem runLimiter_quantum (events : List LimiterEvent) :
    ∀ s : LimiterState, (runLimiter s events).quantum = s.quantum := by
  induction events with
  | nil => intro s; rfl
  | cons e es ih =>
    intro s
    cases e with
    | write chunk => exact (ih (writeData chunk s)).trans (writeData_quantum chunk s)
    | tick => exact (ih (onTokenTimer s)).trans (onTokenTimer_quantum s)

theorem runLimiter_capacity (events : List LimiterEvent) :
    ∀ s : LimiterState, (runLimiter s events).capacity = s.capacity := by
  induction events with
  | nil => intro s; rfl
  | cons e es ih =>
    intro s
    cases e with
    | write chunk => exact (ih (writeData chunk s)).trans (writeData_capacity chunk s)
    | tick => exact (ih (onTokenTimer s)).trans (onTokenTimer_capacity s)

theorem onTokenTimer_buffer_shrinks {s : LimiterState} (hc : 1 ≤ s.capacity)
    (hq : 1 ≤ s.quantum) (hne : s.buffer ≠ []) :
    (onTokenTimer s).buffer.length < s.buffer.length := by
  have hlen : 0 < s.buffer.length := List.length_pos.mpr hne
  have htok : 1 ≤ min s.capacity (s.tokens + s.quantum) := by
    exact le_min hc (by omega)
  unfold onTokenTimer
  rw [drain_buffer]
  dsimp only
  rw [List.length_drop]
  omega

theorem ticks_drain_to_empty (k : Nat) :
    ∀ s : LimiterState, 1 ≤ s.capacity → 1 ≤ s.quantum → s.buffer.length ≤ k →
      (runLimiter s (List.replicate k LimiterEvent.tick)).buffer = [] := by
  induction k with
  | zero =>
    intro s _ _ h
    exact List.eq_nil_of_length_eq_zero (Nat.le_zero.mp h)
  | succ k ih =>
    intro s hc hq h
    have hstep : runLimiter s (List.replicate (k + 1) LimiterEvent.tick) =
        runLimiter (onTokenTimer s) (List.replicate k LimiterEvent.tick) := by
      rw [List.replicate_succ]
      rfl
    rw [hstep]
    by_cases hb : s.buffer = []
    · refine ih (onTokenTimer s) (by simp [hc]) (by simp [hq]) ?_
      unfold onTokenTimer
      rw [drain_buffer]
      simp [hb]
    · refine ih (onTokenTimer s) (by simp [hc]) (by simp [hq]) ?_
      have := onTokenTimer_buffer_shrinks hc hq hb
      omega

theorem submittedBytes_append (a b : List LimiterEvent) :
    submittedBytes (a ++ b) = submittedBytes a ++ submittedBytes b := by
  induction a with
  | nil => simp [submittedBytes]
  | cons e es ih =>
    cases e <;> simp [submittedBytes, ih]

theorem submittedBytes_replicate_tick (k : Nat) :
    submittedBytes (List.replicate k LimiterEvent.tick) = [] := by
  induction k with
  | zero => rfl
  | succ k ih => simpa [List.replicate_succ, submittedBytes] using ih

theorem runLimiter_append (s : LimiterState) (a b : List LimiterEvent) :
    runLimiter s (a ++ b) = runLimiter (runLimiter s a) b :=
  List.foldl_append _ _ _ _

/-! ## Claim C5: byte order preserved, no silent drops -/

/-- C5: for every sequence of chunks submitted to a StreamRateLimiter with a
positive rate, the bytes forwarded so far followed by the bytes still
buffered equal, in order, the concatenation of all submitted bytes; and after
enough refill-timer firings to let the limiter run to completion the buffer
is empty and the forwarded bytes equal exactly the submitted bytes — same
order, same total count, no silent drops. -/
theorem C5_forwarded_equals_submitted (max_kbps max_buffered_data : Nat)
    (events : List LimiterEvent) (hR : 1 ≤ max_kbps) :
    (runLimiter (mkStreamRateLimiter max_kbps max_buffered_data) events).forwarded ++
        (runLimiter (mkStreamRateLimiter max_kbps max_buffered_data) events).buffer =
      submittedBytes events ∧
    (runLimiter (mkStreamRateLimiter max_kbps max_buffered_data)
        (events ++ List.replicate
          (runLimiter (mkStreamRateLimiter max_kbps max_buffered_data) events).buffer.length
          LimiterEvent.tick)).buffer = [] ∧
    (runLimiter (mkStreamRateLimiter max_kbps max_buffered_data)
        (events ++ List.replicate
          (runLimiter (mkStreamRateLimiter max_kbps max_buffered_data) events).buffer.length
          LimiterEvent.tick)).forwarded = submittedBytes events := by
  have hpos : 1 ≤ max_kbps * 1024 :=
    Nat.one_le_iff_ne_zero.mpr (Nat.mul_ne_zero (by omega) (by omega))
  have hinv := runLimiter_forwarded_append_buffer events (mkStreamRateLimiter max_kbps max_buffered_data)
  have hfirst :
      (runLimiter (mkStreamRateLimiter max_kbps max_buffered_data) events).forwarded ++
        (runLimiter (mkStreamRateLimiter max_kbps max_buffered_data) events).buffer =
      submittedBytes events := by
    simpa [mkStreamRateLimiter] using hinv
  have hcap : (runLimiter (mkStreamRateLimiter max_kbps max_buffered_data) events).capacity =
      max_kbps * 1024 := by
    rw [runLimiter_capacity]
    rfl
  have hqu : (runLimiter (mkStreamRateLimiter max_kbps max_buffered_data) events).quantum =
      max_kbps * 1024 := by
    rw [runLimiter_quantum]
    rfl
  have hempty :
      (runLimiter (mkStreamRateLimiter max_kbps max_buffered_data)
        (events ++ List.replicate
          (runLimiter (mkStreamRateLimiter max_kbps max_buffered_data) events).buffer.length
          LimiterEvent.tick)).buffer = [] := by
    rw [runLimiter_append]
    exact ticks_drain_to_empty _ _ (by rw [hcap]; exact hpos) (by rw [hqu]; exact hpos) le_rfl
  refine ⟨hfirst, hempty, ?_⟩
  have hinv2 := runLimiter_forwarded_append_buffer
    (events ++ List.replicate
      (runLimiter (mkStreamRateLimiter max_kbps max_buffered_data) events).buffer.length
      LimiterEvent.tick) (mkStreamRateLimiter max_kbps max_buffered_data)
  rw [hempty, List.append_nil] at hinv2
  rw [hinv2]
  simp [mkStreamRateLimiter, submittedBytes_append, submittedBytes_replicate_tick]

/-- C5 witness: the theorem instantiated at rate 1 KiB/s, buffer bound 5, and
a single three-byte submission. -/
theorem C5_forwarded_equals_submitted_witness :
    (runLimiter (mkStreamRateLimiter 1 5) [LimiterEvent.write [10, 20, 30]]).forwarded ++
        (runLimiter (mkStreamRateLimiter 1 5) [LimiterEvent.write [10, 20, 30]]).buffer =
      submittedBytes [LimiterEvent.write [10, 20, 30]] ∧
    (runLimiter (mkStreamRateLimiter 1 5)
        ([LimiterEvent.write [10, 20, 30]] ++ List.replicate
          (runLimiter (mkStreamRateLimiter 1 5) [LimiterEvent.write [10, 20, 30]]).buffer.length
          LimiterEvent.tick)).buffer = [] ∧
    (runLimiter (mkStreamRateLimiter 1 5)
        ([LimiterEvent.write [10, 20, 30]] ++ List.replicate
          (runLimiter (mkStreamRateLimiter 1 5) [LimiterEvent.write [10, 20, 30]]).buffer.length
          LimiterEvent.tick)).forwarded = submittedBytes [LimiterEvent.write [10, 20, 30]] :=
  C5_forwarded_equals_submitted 1 5 [LimiterEvent.write [10, 20, 30]] (by decide)

/-! ## Claim C9: the unit of the configured rate -/

/-- C9 counterexample: the claim reads the configured rate as bytes per
second. With fixed rate 1 and one two-byte submission, the limiter forwards
two bytes immediately — within the first refill interval (the first second,
tickCount = 0) — exceeding the claimed bound of 1 byte per second; the
constructor parameter is a rate in kilobytes per second (max_kbps), not bytes
per second. -/
theorem C9_counterexample_rate_unit :
    (runLimiter (mkStreamRateLimiter 1 100) [LimiterEvent.write [7, 7]]).forwarded.length = 2 ∧
    ¬ ((runLimiter (mkStreamRateLimiter 1 100)
          [LimiterEvent.write [7, 7]]).forwarded.length ≤
        1 * (tickCount [LimiterEvent.write [7, 7]] + 1)) := by
  constructor
  · rfl
  · decide

theorem writeData_bytes_tokens (chunk : List Nat) (s : LimiterState) :
    (writeData chunk s).forwarded.length + (writeData chunk s).tokens =
      s.forwarded.length + s.tokens := by
  unfold writeData
  dsimp only
  split_ifs with h
  · rw [drain_bytes_tokens]
  · rw [drain_bytes_tokens]

theorem onTokenTimer_bytes_tokens (s : LimiterState) :
    (onTokenTimer s).forwarded.length + (onTokenTimer s).tokens ≤
      s.forwarded.length + s.tokens + s.quantum := by
  unfold onTokenTimer
  rw [drain_bytes_tokens]
  show s.forwarded.length + min s.capacity (s.tokens + s.quantum) ≤
    s.forwarded.length + s.tokens + s.quantum
  omega

theorem step_bytes_tokens_le (s : LimiterState) (e : LimiterEvent) :
    (limiterStep s e).forwarded.length + (limiterStep s e).tokens ≤
      s.forwarded.length + s.tokens + s.quantum := by
  cases e with
  | write chunk =>
    have h := writeData_bytes_tokens chunk s
    simp only [limiterStep]
    omega
  | tick => exact onTokenTimer_bytes_tokens s

theorem limiterStep_quantum (s : LimiterState) (e : LimiterEvent) :
    (limiterStep s e).quantum = s.quantum := by
  cases e with
  | write chunk => exact writeData_quantum chunk s
  | tick => exact onTokenTimer_quantum s

theorem runLimiter_bytes_tokens_le (events : List LimiterEvent) :
    ∀ s : LimiterState,
      (runLimiter s events).forwarded.length + (runLimiter s events).tokens ≤
        s.forwarded.length + s.tokens + tickCount events * s.quantum := by
  induction events with
  | nil => intro s; simp [runLimiter, tickCount]
  | cons e es ih =>
    intro s
    have hstep : runLimiter s (e :: es) = runLimiter (limiterStep s e) es := rfl
    have h2 := ih (limiterStep s e)
    rw [limiterStep_quantum] at h2
    rw [hstep]
    cases e with
    | write chunk =>
      have h1 := writeData_bytes_tokens chunk s
      have hw : limiterStep s (LimiterEvent.write chunk) = writeData chunk s := rfl
      rw [hw] at h2 ⊢
      simp only [tickCount]
      omega
    | tick =>
      have h1 := onTokenTimer_bytes_tokens s
      have hw : limiterStep s LimiterEvent.tick = onTokenTimer s := rfl
      rw [hw] at h2 ⊢
      simp only [tickCount]
      have hx : (tickCount es + 1) * s.quantum = tickCount es * s.quantum + s.quantum :=
        Nat.succ_mul _ _
      omega

/-- C9 (amended): the configured rate is in kilobytes per second: the
StreamRateLimiter constructor takes max_kbps (and
FaultSettings::RateLimit stores fixed_rate_kbps_), giving max_kbps * 1024
bytes per refill interval of one second. Over any event trace containing k
refill-timer firings (k elapsed seconds), the limiter forwards at most
(k + 1) * max_kbps * 1024 bytes: at most 1024 * R bytes per second, one
initial full-bucket interval included. -/
theorem C9_rate_is_kilobytes_per_second (max_kbps max_buffered_data : Nat)
    (events : List LimiterEvent) :
    (runLimiter (mkStreamRateLimiter max_kbps max_buffered_data) events).forwarded.length ≤
      (tickCount events + 1) * (max_kbps * 1024) := by
  have h := runLimiter_bytes_tokens_le events (mkStreamRateLimiter max_kbps max_buffered_data)
  have hi1 : (mkStreamRateLimiter max_kbps max_buffered_data).forwarded.length = 0 := rfl
  have hi2 : (mkStreamRateLimiter max_kbps max_buffered_data).tokens = max_kbps * 1024 := rfl
  have hi3 : (mkStreamRateLimiter max_kbps max_buffered_data).quantum = max_kbps * 1024 := rfl
  rw [hi1, hi2, hi3] at h
  have hx : (tickCount events + 1) * (max_kbps * 1024) =
      tickCount events * (max_kbps * 1024) + max_kbps * 1024 := Nat.succ_mul _ _
  omega

/-! ## Pause/resume discipline of the StreamRateLimiter -/

theorem drain_paused_resume (s : LimiterState) :
    if s.buffer.drop (min s.tokens s.buffer.length) = [] ∧ s.paused = true then
      (drainAndMaybeResume s).paused = false ∧
        (drainAndMaybeResume s).resume_calls = s.resume_calls + 1
    else
      (drainAndMaybeResume s).paused = s.paused ∧
        (drainAndMaybeResume s).resume_calls = s.resume_calls := by
  unfold drainAndMaybeResume
  dsimp only
  by_cases h1 : 0 < min s.tokens s.buffer.length
  · simp only [if_pos h1]
    by_cases h2 : s.buffer.drop (min s.tokens s.buffer.length) = [] ∧ s.paused = true
    · simp [h2, h2.1, h2.2]
    · rw [if_neg h2]
      rw [not_and] at h2
      by_cases h3 : s.buffer.drop (min s.tokens s.buffer.length) = []
      · have hp : ¬ (s.paused = true) := h2 h3
        simp [h3, hp]
      · simp [h3]
  · have h0 : min s.tokens s.buffer.length = 0 := by omega
    simp only [if_neg h1, h0, List.drop_zero]
    by_cases h2 : s.buffer = [] ∧ s.paused = true
    · simp [h2, h2.1, h2.2]
    · rw [if_neg h2]
      rw [not_and] at h2
      by_cases h3 : s.buffer = []
      · have hp : ¬ (s.paused = true) := h2 h3
        simp [h3, hp]
      · simp [h3]

theorem drain_no_resume_when_unpaused {s : LimiterState} (hp : s.paused = false) :
    (drainAndMaybeResume s).resume_calls = s.resume_calls ∧
    (drainAndMaybeResume s).paused = false := by
  have h := drain_paused_resume s
  rw [if_neg (by simp [hp])] at h
  exact ⟨h.2, h.1.trans hp⟩

theorem drain_resume_when_drains_all {s : LimiterState} (hp : s.paused = true)
    (ht : s.buffer.length ≤ s.tokens) :
    (drainAndMaybeResume s).resume_calls = s.resume_calls + 1 ∧
    (drainAndMaybeResume s).paused = false := by
  have hmin : min s.tokens s.buffer.length = s.buffer.length := min_eq_right ht
  have h := drain_paused_resume s
  rw [if_pos ⟨by rw [hmin]; exact List.drop_length _, hp⟩] at h
  exact ⟨h.2, h.1⟩

theorem drain_pauseInv {s : LimiterState} (h : pauseInv s) :
    pauseInv (drainAndMaybeResume s) := by
  have hd := drain_paused_resume s
  unfold pauseInv at h ⊢
  rw [drain_pause_calls]
  split_ifs at hd with hc
  · rcases hd with ⟨hpz, hr⟩
    rw [hpz, hr]
    simp only [hc.2, if_true] at h
    simp [h]
  · rcases hd with ⟨hpz, hr⟩
    rw [hpz, hr]
    exact h

theorem writeData_pauseInv (chunk : List Nat) {s : LimiterState} (h : pauseInv s) :
    pauseInv (writeData chunk s) := by
  unfold writeData
  dsimp only
  split_ifs with hc
  · refine drain_pauseInv ?_
    have hp : s.paused = false := by
      have h2 := hc.2
      simpa using h2
    unfold pauseInv at h ⊢
    simp only [hp, if_false] at h
    simp [h]
  · refine drain_pauseInv ?_
    unfold pauseInv at h ⊢
    simpa using h

theorem onTokenTimer_pauseInv {s : LimiterState} (h : pauseInv s) :
    pauseInv (onTokenTimer s) := by
  unfold onTokenTimer
  refine drain_pauseInv ?_
  unfold pauseInv at h ⊢
  simpa using h

theorem limiterStep_pauseInv {s : LimiterState} (e : LimiterEvent) (h : pauseInv s) :
    pauseInv (limiterStep s e) := by
  cases e with
  | write chunk => exact writeData_pauseInv chunk h
  | tick => exact onTokenTimer_pauseInv h

theorem runLimiter_pauseInv (events : List LimiterEvent) :
    ∀ s : LimiterState, pauseInv s → pauseInv (runLimiter s events) := by
  induction events with
  | nil => intro s h; exact h
  | cons e es ih => intro s h; exact ih _ (limiterStep_pauseInv e h)

theorem limiterStep_no_pause_when_paused {s : LimiterState} (hp : s.paused = true)
    (e : LimiterEvent) : (limiterStep s e).pause_calls = s.pause_calls := by
  cases e with
  | write chunk =>
    show (writeData chunk s).pause_calls = s.pause_calls
    unfold writeData
    dsimp only
    rw [if_neg (by simp [hp])]
    rw [drain_pause_calls]
  | tick =>
    show (onTokenTimer s).pause_calls = s.pause_calls
    unfold onTokenTimer
    rw [drain_pause_calls]

theorem writeData_pause_on_crossing (chunk : List Nat) {s : LimiterState}
    (hp : s.paused = false)
    (hc : s.max_buffered_data < s.buffer.length + chunk.length) :
    (writeData chunk s).pause_calls = s.pause_calls + 1 := by
  unfold writeData
  dsimp only
  rw [if_pos ⟨by simpa [List.length_append] using hc, by simp [hp]⟩]
  rw [drain_pause_calls]

theorem writeData_no_pause_without_crossing (chunk : List Nat) {s : LimiterState}
    (hc : s.buffer.length + chunk.length ≤ s.max_buffered_data) :
    (writeData chunk s).pause_calls = s.pause_calls := by
  unfold writeData
  dsimp only
  rw [if_neg ?hneg]
  · rw [drain_pause_calls]
  case hneg =>
    intro hcon
    exact absurd hcon.1 (Nat.not_lt.mpr (by simpa [List.length_append] using hc))

theorem onTokenTimer_no_resume_when_unpaused {s : LimiterState} (hp : s.paused = false) :
    (onTokenTimer s).resume_calls = s.resume_calls := by
  unfold onTokenTimer
  exact (drain_no_resume_when_unpaused (s := { s with
    tokens := min s.capacity (s.tokens + s.quantum) }) hp).1

/-! ## Claim C6: pauseProducer/resumeProducer fire exactly once -/

/-- C6: the pause/resume discipline of the StreamRateLimiter. Over every
event trace the numbers of pauseProducer and resumeProducer calls
alternate: pause_calls = resume_calls while running and resume_calls + 1
while paused (so each is invoked exactly once per pause episode). While the
producer is already paused no event invokes pauseProducer again. A writeData
whose append makes the buffer exceed max_buffered_data_ on an unpaused
limiter invokes pauseProducer exactly once; one that does not exceed it
invokes none. When the drain leaves the buffer empty on a paused limiter,
resumeProducer is invoked exactly once and the paused flag clears; while the
producer is not paused neither the drain nor the refill timer ever invokes
resumeProducer. -/
theorem C6_pause_resume_exactly_once
    (s s1 s2 s3 s4 : LimiterState) (events : List LimiterEvent)
    (chunk chunk3 : List Nat) (e : LimiterEvent)
    (h : pauseInv s)
    (h1 : s1.paused = true)
    (h2 : s2.paused = false)
    (hc2 : s2.max_buffered_data < s2.buffer.length + chunk.length)
    (hc3 : s3.buffer.length + chunk3.length ≤ s3.max_buffered_data)
    (h4 : s4.paused = true)
    (hc4 : s4.buffer.length ≤ s4.tokens) :
    pauseInv (runLimiter s events) ∧
    (limiterStep s1 e).pause_calls = s1.pause_calls ∧
    (writeData chunk s2).pause_calls = s2.pause_calls + 1 ∧
    (writeData chunk3 s3).pause_calls = s3.pause_calls ∧
    (drainAndMaybeResume s4).resume_calls = s4.resume_calls + 1 ∧
    (drainAndMaybeResume s4).paused = false ∧
    (drainAndMaybeResume s2).resume_calls = s2.resume_calls ∧
    (onTokenTimer s2).resume_calls = s2.resume_calls :=
  ⟨runLimiter_pauseInv events s h,
   limiterStep_no_pause_when_paused h1 e,
   writeData_pause_on_crossing chunk h2 hc2,
   writeData_no_pause_without_crossing chunk3 hc3,
   (drain_resume_when_drains_all h4 hc4).1,
   (drain_resume_when_drains_all h4 hc4).2,
   (drain_no_resume_when_unpaused h2).1,
   onTokenTimer_no_resume_when_unpaused h2⟩

/-- C6 witness: the theorem instantiated at concrete limiter states — a fresh
limiter fed one overflowing chunk, a paused state, an unpaused state about to
cross the threshold, one that stays below it, and a paused state whose tokens
cover its whole buffer. -/
theorem C6_pause_resume_exactly_once_witness :
    pauseInv (runLimiter (mkStreamRateLimiter 1 1) [LimiterEvent.write [1, 2, 3]]) ∧
    (limiterStep (LimiterState.mk [1] 0 1 1 0 true true [] 1 0) LimiterEvent.tick).pause_calls =
      (LimiterState.mk [1] 0 1 1 0 true true [] 1 0).pause_calls ∧
    (writeData [2, 3] (LimiterState.mk [1] 0 1 1 1 false true [] 0 0)).pause_calls =
      (LimiterState.mk [1] 0 1 1 1 false true [] 0 0).pause_calls + 1 ∧
    (writeData [9] (LimiterState.mk [] 5 5 5 10 false false [] 0 0)).pause_calls =
      (LimiterState.mk [] 5 5 5 10 false false [] 0 0).pause_calls ∧
    (drainAndMaybeResume (LimiterState.mk [9] 3 5 5 0 true true [] 1 0)).resume_calls =
      (LimiterState.mk [9] 3 5 5 0 true true [] 1 0).resume_calls + 1 ∧
    (drainAndMaybeResume (LimiterState.mk [9] 3 5 5 0 true true [] 1 0)).paused = false ∧
    (drainAndMaybeResume (LimiterState.mk [1] 0 1 1 1 false true [] 0 0)).resume_calls =
      (LimiterState.mk [1] 0 1 1 1 false true [] 0 0).resume_calls ∧
    (onTokenTimer (LimiterState.mk [1] 0 1 1 1 false true [] 0 0)).resume_calls =
      (LimiterState.mk [1] 0 1 1 1 false true [] 0 0).resume_calls :=
  C6_pause_resume_exactly_once (mkStreamRateLimiter 1 1)
    (LimiterState.mk [1] 0 1 1 0 true true [] 1 0)
    (LimiterState.mk [1] 0 1 1 1 false true [] 0 0)
    (LimiterState.mk [] 5 5 5 10 false false [] 0 0)
    (LimiterState.mk [9] 3 5 5 0 true true [] 1 0)
    [LimiterEvent.write [1, 2, 3]] [2, 3] [9] LimiterEvent.tick
    (by decide) (by decide) (by decide) (by decide) (by decide) (by decide)
    (by decide)

/-! ## Claim C3: a mismatched request considers no fault at all -/

/-- C3: when the upstream-cluster filter is set and mismatched, or the
downstream-node filter is set and the caller identity is absent from it, or
any header matcher fails, decodeHeaders returns Continue and no fault is
considered at all: the sampler stream, the shared statistics (budget
included) and the per-request filter state (timer included) are completely
untouched, regardless of the configured probabilities. -/
theorem C3_mismatch_continue_untouched
    (snap : RuntimeSnapshot) (cfg : FaultSettings) (req : Request) (d : DecodeState)
    (h : matchesTargetUpstreamCluster cfg req = false ∨
         matchesDownstreamNodes cfg req = false ∨
         matchesHeaders cfg req = false) :
    decodeHeaders snap cfg req d = (HeaderAction.Continue, d) ∧
    (decodeHeaders snap cfg req d).2.sampler = d.sampler ∧
    (decodeHeaders snap cfg req d).2.g = d.g ∧
    (decodeHeaders snap cfg req d).2.st = d.st := by
  have hcond : ¬ (matchesTargetUpstreamCluster cfg req ∧ matchesDownstreamNodes cfg req ∧
      matchesHeaders cfg req) := by
    rcases h with h | h | h <;> simp [h]
  have hres : decodeHeaders snap cfg req d = (HeaderAction.Continue, d) := by
    unfold decodeHeaders
    rw [if_neg hcond]
  exact ⟨hres, by rw [hres], by rw [hres], by rw [hres]⟩

/-- C3 witness: the theorem instantiated at a rule restricted to downstream
node node-A and a request whose caller identity is node-B, with full fault
probabilities configured. -/
theorem C3_mismatch_continue_untouched_witness :
    decodeHeaders (fun _ => none)
        (FaultSettings.mk 100 503 100 1000 none [] ["node-A"] none none)
        (Request.mk [] (some "node-B") none)
        (DecodeState.mk (GlobalState.mk 0 0 0 0 0) (FilterState.mk false false false) [0]) =
      (HeaderAction.Continue,
       DecodeState.mk (GlobalState.mk 0 0 0 0 0) (FilterState.mk false false false) [0]) ∧
    (decodeHeaders (fun _ => none)
        (FaultSettings.mk 100 503 100 1000 none [] ["node-A"] none none)
        (Request.mk [] (some "node-B") none)
        (DecodeState.mk (GlobalState.mk 0 0 0 0 0) (FilterState.mk false false false)
          [0])).2.sampler =
      (DecodeState.mk (GlobalState.mk 0 0 0 0 0) (FilterState.mk false false false) [0]).sampler ∧
    (decodeHeaders (fun _ => none)
        (FaultSettings.mk 100 503 100 1000 none [] ["node-A"] none none)
        (Request.mk [] (some "node-B") none)
        (DecodeState.mk (GlobalState.mk 0 0 0 0 0) (FilterState.mk false false false)
          [0])).2.g =
      (DecodeState.mk (GlobalState.mk 0 0 0 0 0) (FilterState.mk false false false) [0]).g ∧
    (decodeHeaders (fun _ => none)
        (FaultSettings.mk 100 503 100 1000 none [] ["node-A"] none none)
        (Request.mk [] (some "node-B") none)
        (DecodeState.mk (GlobalState.mk 0 0 0 0 0) (FilterState.mk false false false)
          [0])).2.st =
      (DecodeState.mk (GlobalState.mk 0 0 0 0 0) (FilterState.mk false false false) [0]).st :=
  C3_mismatch_continue_untouched (fun _ => none)
    (FaultSettings.mk 100 503 100 1000 none [] ["node-A"] none none)
    (Request.mk [] (some "node-B") none)
    (DecodeState.mk (GlobalState.mk 0 0 0 0 0) (FilterState.mk false false false) [0])
    (by decide)

/-! ## Claim C4: delay overflow falls through to abort evaluation -/

theorem tryAcquireBudget_overflow_shift (m : Option Nat) (g : GlobalState) :
    tryAcquireBudget m (bumpOverflow g) =
      ((tryAcquireBudget m g).1, bumpOverflow (tryAcquireBudget m g).2) := by
  cases m with
  | none => rfl
  | some bound =>
    by_cases h : g.active_faults < bound <;>
      simp [tryAcquireBudget, bumpOverflow, h]

theorem evalRateLimit_overflow_shift (snap : RuntimeSnapshot) (cfg : FaultSettings)
    (req : Request) (d : DecodeState) :
    evalRateLimit snap cfg req { d with g := bumpOverflow d.g } =
      ((evalRateLimit snap cfg req d).1,
       { (evalRateLimit snap cfg req d).2 with
          g := bumpOverflow (evalRateLimit snap cfg req d).2.g }) := by
  unfold evalRateLimit
  cases cfg.response_rate_limit with
  | none => rfl
  | some rl =>
    dsimp only
    rcases hs : drawSample d.sampler with ⟨sample, rest⟩
    by_cases hp : percentEnabled sample
        (runtimeValue snap RuntimeKeyId.responseRateLimit req.callerIdentity rl.percentage) <;>
      simp [hs, hp, bumpOverflow]

theorem evalAbortAndRateLimit_overflow_shift (snap : RuntimeSnapshot)
    (cfg : FaultSettings) (req : Request) (d : DecodeState) :
    evalAbortAndRateLimit snap cfg req { d with g := bumpOverflow d.g } =
      ((evalAbortAndRateLimit snap cfg req d).1,
       { (evalAbortAndRateLimit snap cfg req d).2 with
          g := bumpOverflow (evalAbortAndRateLimit snap cfg req d).2.g }) := by
  unfold evalAbortAndRateLimit
  dsimp only
  rcases hs : drawSample d.sampler with ⟨sample, rest⟩
  by_cases hp : percentEnabled sample (effectiveAbortPercent snap cfg req.callerIdentity)
  · by_cases hf : d.st.fault_active
    · simp [hs, hp, hf, bumpOverflow]
    · rcases ht : tryAcquireBudget (effectiveMaxActiveFaults snap cfg req.callerIdentity) d.g
        with ⟨ok, g2⟩
      have hshift := tryAcquireBudget_overflow_shift
        (effectiveMaxActiveFaults snap cfg req.callerIdentity) d.g
      rw [ht] at hshift
      cases ok
      · have hnest := evalRateLimit_overflow_shift snap cfg req
          { d with g := g2, sampler := rest }
        simp [hs, hp, hf, hshift, ht]
        simpa using hnest
      · simp [hs, hp, hf, hshift, ht]
        simp [bumpOverflow]
  · have hnest := evalRateLimit_overflow_shift snap cfg req { d with sampler := rest }
    simp [hs, hp]
    simpa using hnest

theorem tryAcquireBudget_delays (m : Option Nat) (g : GlobalState) :
    (tryAcquireBudget m g).2.delays_injected = g.delays_injected := by
  cases m with
  | none => rfl
  | some bound =>
    by_cases h : g.active_faults < bound <;> simp [tryAcquireBudget, h]

theorem evalRateLimit_preserves (snap : RuntimeSnapshot) (cfg : FaultSettings)
    (req : Request) (d : DecodeState) :
    (evalRateLimit snap cfg req d).2.g.delays_injected = d.g.delays_injected ∧
    (evalRateLimit snap cfg req d).2.st.delay_timer = d.st.delay_timer := by
  unfold evalRateLimit
  cases cfg.response_rate_limit with
  | none => exact ⟨rfl, rfl⟩
  | some rl =>
    dsimp only
    rcases hs : drawSample d.sampler with ⟨sample, rest⟩
    by_cases hp : percentEnabled sample
        (runtimeValue snap RuntimeKeyId.responseRateLimit req.callerIdentity rl.percentage) <;>
      simp [hs, hp]

theorem evalAbortAndRateLimit_preserves (snap : RuntimeSnapshot) (cfg : FaultSettings)
    (req : Request) (d : DecodeState) :
    (evalAbortAndRateLimit snap cfg req d).2.g.delays_injected = d.g.delays_injected ∧
    (evalAbortAndRateLimit snap cfg req d).2.st.delay_timer = d.st.delay_timer := by
  unfold evalAbortAndRateLimit
  dsimp only
  rcases hs : drawSample d.sampler with ⟨sample, rest⟩
  by_cases hp : percentEnabled sample (effectiveAbortPercent snap cfg req.callerIdentity)
  · by_cases hf : d.st.fault_active
    · simp [hs, hp, hf]
    · rcases ht : tryAcquireBudget (effectiveMaxActiveFaults snap cfg req.callerIdentity) d.g
        with ⟨ok, g2⟩
      have hd := tryAcquireBudget_delays (effectiveMaxActiveFaults snap cfg req.callerIdentity) d.g
      rw [ht] at hd
      have hd2 : g2.delays_injected = d.g.delays_injected := hd
      cases ok
      · have hnest := evalRateLimit_preserves snap cfg req { d with g := g2, sampler := rest }
        simp [hs, hp, hf, ht]
        exact ⟨by simpa [hd2] using hnest.1, by simpa using hnest.2⟩
      · simp [hs, hp, hf, ht, hd2]
  · have hnest := evalRateLimit_preserves snap cfg req { d with sampler := rest }
    simp [hs, hp]
    exact ⟨by simpa using hnest.1, by simpa using hnest.2⟩

/-- C4: when the probability check selects a delay but the budget
acquisition fails (overflow), the delay is not applied: no delay timer is
armed and delays_injected is unchanged; evaluation falls through to the
abort evaluation step with exactly the action and state it would have
produced had no delay been selected, except that faults_overflow is exactly
one higher; no error is surfaced to the caller — the returned action is the
ordinary fall-through action. -/
theorem C4_delay_overflow_falls_through
    (snap : RuntimeSnapshot) (cfg : FaultSettings) (req : Request) (d : DecodeState)
    (sample : Nat) (rest : List Nat) (m : Nat)
    (hmatch : matchesTargetUpstreamCluster cfg req = true ∧
              matchesDownstreamNodes cfg req = true ∧ matchesHeaders cfg req = true)
    (hs : d.sampler = sample :: rest)
    (hdel : percentEnabled sample (effectiveDelayPercent snap cfg req.callerIdentity) = true)
    (hmax : effectiveMaxActiveFaults snap cfg req.callerIdentity = some m)
    (hov : m ≤ d.g.active_faults) :
    decodeHeaders snap cfg req d =
      ((evalAbortAndRateLimit snap cfg req { d with sampler := rest }).1,
       { (evalAbortAndRateLimit snap cfg req { d with sampler := rest }).2 with
          g := bumpOverflow
            (evalAbortAndRateLimit snap cfg req { d with sampler := rest }).2.g }) ∧
    (decodeHeaders snap cfg req d).2.g.delays_injected = d.g.delays_injected ∧
    (decodeHeaders snap cfg req d).2.st.delay_timer = d.st.delay_timer ∧
    (decodeHeaders snap cfg req d).2.g.faults_overflow =
      (evalAbortAndRateLimit snap cfg req
        { d with sampler := rest }).2.g.faults_overflow + 1 := by
  have hlt : ¬ d.g.active_faults < m := Nat.not_lt.mpr hov
  have hstep : decodeHeaders snap cfg req d =
      evalAbortAndRateLimit snap cfg req
        { ({ d with sampler := rest } : DecodeState) with
            g := bumpOverflow ({ d with sampler := rest } : DecodeState).g } := by
    unfold decodeHeaders
    rw [if_pos ⟨hmatch.1, hmatch.2.1, hmatch.2.2⟩, hs]
    simp [drawSample, hdel, hmax, tryAcquireBudget, hlt, bumpOverflow]
  have hshift := evalAbortAndRateLimit_overflow_shift snap cfg req { d with sampler := rest }
  have hmain := hstep.trans hshift
  have hpres := evalAbortAndRateLimit_preserves snap cfg req { d with sampler := rest }
  refine ⟨hmain, ?_, ?_, ?_⟩
  · rw [hmain]
    simpa [bumpOverflow] using hpres.1
  · rw [hmain]
    simpa using hpres.2
  · rw [hmain]
    simp [bumpOverflow]

/-- C4 witness: the theorem instantiated at a match-all rule with delay
probability 100, the bound zero (so any delay overflows), abort probability
0 and no rate limit. -/
theorem C4_delay_overflow_falls_through_witness :
    decodeHeaders (fun _ => none) (FaultSettings.mk 0 503 100 1000 none [] [] (some 0) none)
        (Request.mk [] none none)
        (DecodeState.mk (GlobalState.mk 0 0 0 0 0) (FilterState.mk false false false) [5, 50]) =
      ((evalAbortAndRateLimit (fun _ => none)
          (FaultSettings.mk 0 503 100 1000 none [] [] (some 0) none) (Request.mk [] none none)
          { DecodeState.mk (GlobalState.mk 0 0 0 0 0) (FilterState.mk false false false)
              [5, 50] with sampler := [50] }).1,
       { (evalAbortAndRateLimit (fun _ => none)
          (FaultSettings.mk 0 503 100 1000 none [] [] (some 0) none) (Request.mk [] none none)
          { DecodeState.mk (GlobalState.mk 0 0 0 0 0) (FilterState.mk false false false)
              [5, 50] with sampler := [50] }).2 with
          g := bumpOverflow (evalAbortAndRateLimit (fun _ => none)
            (FaultSettings.mk 0 503 100 1000 none [] [] (some 0) none)
            (Request.mk [] none none)
            { DecodeState.mk (GlobalState.mk 0 0 0 0 0) (FilterState.mk false false false)
                [5, 50] with sampler := [50] }).2.g }) ∧
    (decodeHeaders (fun _ => none) (FaultSettings.mk 0 503 100 1000 none [] [] (some 0) none)
        (Request.mk [] none none)
        (DecodeState.mk (GlobalState.mk 0 0 0 0 0) (FilterState.mk false false false)
          [5, 50])).2.g.delays_injected =
      (DecodeState.mk (GlobalState.mk 0 0 0 0 0) (FilterState.mk false false false)
        [5, 50]).g.delays_injected ∧
    (decodeHeaders (fun _ => none) (FaultSettings.mk 0 503 100 1000 none [] [] (some 0) none)
        (Request.mk [] none none)
        (DecodeState.mk (GlobalState.mk 0 0 0 0 0) (FilterState.mk false false false)
          [5, 50])).2.st.delay_timer =
      (DecodeState.mk (GlobalState.mk 0 0 0 0 0) (FilterState.mk false false false)
        [5, 50]).st.delay_timer ∧
    (decodeHeaders (fun _ => none) (FaultSettings.mk 0 503 100 1000 none [] [] (some 0) none)
        (Request.mk [] none none)
        (DecodeState.mk (GlobalState.mk 0 0 0 0 0) (FilterState.mk false false false)
          [5, 50])).2.g.faults_overflow =
      (evalAbortAndRateLimit (fun _ => none)
        (FaultSettings.mk 0 503 100 1000 none [] [] (some 0) none) (Request.mk [] none none)
        { DecodeState.mk (GlobalState.mk 0 0 0 0 0) (FilterState.mk false false false)
            [5, 50] with sampler := [50] }).2.g.faults_overflow + 1 :=
  C4_delay_overflow_falls_through (fun _ => none)
    (FaultSettings.mk 0 503 100 1000 none [] [] (some 0) none)
    (Request.mk [] none none)
    (DecodeState.mk (GlobalState.mk 0 0 0 0 0) (FilterState.mk false false false) [5, 50])
    5 [50] 0 (by decide) rfl (by decide) (by decide) (by decide)

/-! ## Claim C8: runtime override key lookup order -/

/-- C8 counterexample: the claim says each of the six runtime keys is first
checked under a caller-suffixed variant, but FaultFilter declares
caller-suffixed key storage only for the delay-percent, abort-percent,
delay-duration and abort-http-status lookups (downstream_cluster_*_key_,
fault_filter.h lines 214-217); no suffixed variant exists for the
max-active-faults or response-rate-limit lookups, so a value set under a
caller-suffixed max-active-faults key is ignored: the lookup returns the
static fallback 3, not the suffixed value 7. -/
theorem C8_counterexample_only_four_suffixed_keys :
    ¬ (∀ k : RuntimeKeyId, hasDownstreamClusterKey k = true) ∧
    hasDownstreamClusterKey RuntimeKeyId.maxActiveFaults = false ∧
    hasDownstreamClusterKey RuntimeKeyId.responseRateLimit = false ∧
    runtimeValue
      (fun key => if key = "fault.http.max_active_faults.east" then some 7 else none)
      RuntimeKeyId.maxActiveFaults (some "east") 3 = 3 ∧
    ¬ (runtimeValue
        (fun key => if key = "fault.http.max_active_faults.east" then some 7 else none)
        RuntimeKeyId.maxActiveFaults (some "east") 3 = 7) := by
  refine ⟨?_, rfl, rfl, by decide, by decide⟩
  intro hall
  exact absurd (hall RuntimeKeyId.maxActiveFaults) (by decide)

/-- C8 (amended): only four of the six runtime keys — delay-probability
(fixed_delay_percent), delay-duration (fixed_duration_ms), abort-probability
(abort_percent) and abort-status (http_status) — are first checked under the
variant suffixed by the caller identity, then under the unsuffixed global
key, before falling back to the static FaultRule value; the
max-active-faults and response-rate-limit-enable keys have no caller-suffixed
variant and are checked under the global key only (the caller identity does
not influence their lookup) before the static fallback. -/
theorem C8_runtime_key_lookup_order
    (snap1 snap2 snap3 snap4 : RuntimeSnapshot) (k k4 : RuntimeKeyId)
    (caller c1 c2 : String) (fallback v w : Nat)
    (hk : hasDownstreamClusterKey k = true)
    (h1 : snap1 (downstreamClusterKey k caller) = some v)
    (h2 : snap2 (downstreamClusterKey k caller) = none)
    (h3 : snap2 (baseKey k) = some w)
    (h4 : snap3 (downstreamClusterKey k caller) = none)
    (h5 : snap3 (baseKey k) = none)
    (hk4 : hasDownstreamClusterKey k4 = false) :
    runtimeValue snap1 k (some caller) fallback = v ∧
    runtimeValue snap2 k (some caller) fallback = w ∧
    runtimeValue snap3 k (some caller) fallback = fallback ∧
    runtimeValue snap4 k4 (some c1) fallback = runtimeValue snap4 k4 (some c2) fallback := by
  refine ⟨?_, ?_, ?_, ?_⟩
  · simp [runtimeValue, hk, h1]
  · simp [runtimeValue, hk, h2, h3]
  · simp [runtimeValue, hk, h4, h5]
  · simp [runtimeValue, hk4]

/-- C8 witness: the theorem instantiated at the delay-percent key with
caller east and concrete snapshots — one carrying the suffixed key, one only
the global key, one neither — and at the max-active-faults key, whose lookup
is independent of the caller identity. -/
theorem C8_runtime_key_lookup_order_witness :
    runtimeValue
        (fun key => if key = "fault.http.delay.fixed_delay_percent.east" then some 55 else none)
        RuntimeKeyId.delayPercent (some "east") 3 = 55 ∧
    runtimeValue
        (fun key => if key = "fault.http.delay.fixed_delay_percent" then some 66 else none)
        RuntimeKeyId.delayPercent (some "east") 3 = 66 ∧
    runtimeValue (fun _ => none) RuntimeKeyId.delayPercent (some "east") 3 = 3 ∧
    runtimeValue (fun _ => some 9) RuntimeKeyId.maxActiveFaults (some "east") 3 =
      runtimeValue (fun _ => some 9) RuntimeKeyId.maxActiveFaults (some "west") 3 :=
  C8_runtime_key_lookup_order
    (fun key => if key = "fault.http.delay.fixed_delay_percent.east" then some 55 else none)
    (fun key => if key = "fault.http.delay.fixed_delay_percent" then some 66 else none)
    (fun _ => none) (fun _ => some 9)
    RuntimeKeyId.delayPercent RuntimeKeyId.maxActiveFaults
    "east" "east" "west" 3 55 66
    (by decide) (by decide) (by decide) (by decide) (by decide) (by decide) (by decide)

end FaultSpec
